import Mathlib

/-!
Shallow embedding of the `ra-constants` Rust crate
(`src/phi.rs`, `src/thresholds.rs`, `src/frequencies.rs`).

Modelling conventions:
* `f64` values that the code only adds, multiplies, divides, compares and
  clamps are modelled as exact rationals (`ℚ`); a decimal literal denotes the
  corresponding rational.
* `u32` and `u64` are modelled as `ℕ`, with Rust saturating arithmetic made
  explicit against `U64_MAX`.
* A Rust `panic!` is modelled as `Except.error` carrying the panic message.
* `cents_difference` pushes unguarded inputs through `/`, `log2` and `*`,
  where the IEEE special values matter; its value space is modelled by `F64`,
  either a finite real or one of the three non-finite values.
* `is_coherence_stable` takes a square root, so its comparison lands in `ℝ`
  while mean and variance stay exact in `ℚ`.
-/

namespace RaConstants

instance {α β : Type} [DecidableEq α] [DecidableEq β] : DecidableEq (Except α β) := fun a b =>
  match a, b with
  | .ok x, .ok y => decidable_of_iff (x = y) (by simp)
  | .error x, .error y => decidable_of_iff (x = y) (by simp)
  | .ok _, .error _ => isFalse (fun h => Except.noConfusion h)
  | .error _, .ok _ => isFalse (fun h => Except.noConfusion h)

/-! ## phi.rs -/

/-- The constant `PHI` from `phi.rs`: the literal `1.618033988749895` read as
an exact rational. -/
def PHI : ℚ := 1.618033988749895

/-- The largest `u64` value, `2 ^ 64 - 1`. -/
def U64_MAX : ℕ := 18446744073709551615

/-- Rust `u64::saturating_add` on the mathematical values. -/
def saturatingAdd (a b : ℕ) : ℕ := min (a + b) U64_MAX

/-- One pass of the loop body of `fibonacci_ratio`: the pair holds
`(fib_prev, fib_curr)`. -/
def fibStep (s : ℕ × ℕ) : ℕ × ℕ := (s.2, saturatingAdd s.1 s.2)

/-- The register pair `(fib_prev, fib_curr)` of `fibonacci_ratio` after `i`
iterations of its loop, starting from `(1, 1)`. -/
def fibState : ℕ → ℕ × ℕ
  | 0 => (1, 1)
  | i + 1 => fibStep (fibState i)

/-- `phi.rs`, function `fibonacci_ratio`: panics on `n < 1`, otherwise runs
the saturating two-register loop `n - 1` times and divides the registers.
The final f64 division is modelled as exact rational division. -/
def fibonacci_ratio (n : ℕ) : Except String ℚ :=
  if n < 1 then Except.error "n must be >= 1"
  else
    Except.ok (((fibState (n - 1)).2 : ℚ) / ((fibState (n - 1)).1 : ℚ))

/-- `phi.rs`, function `is_phi_ratio`: `false` on nonpositive inputs,
otherwise compares the larger-over-smaller ratio against `PHI`. -/
def is_phi_ratio (a b tolerance : ℚ) : Bool :=
  if a ≤ 0 ∨ b ≤ 0 then false
  else decide (|max a b / min a b - PHI| < tolerance)

/-- `phi.rs`, function `is_phi_ratio_default`: tolerance fixed to `0.01`. -/
def is_phi_ratio_default (a b : ℚ) : Bool :=
  is_phi_ratio a b 0.01

/-! ## thresholds.rs -/

/-- Threshold constant `HIGH_COHERENCE`. -/
def HIGH_COHERENCE : ℚ := 0.85

/-- Threshold constant `MEDIUM_COHERENCE`. -/
def MEDIUM_COHERENCE : ℚ := 0.6

/-- Threshold constant `LOW_COHERENCE`. -/
def LOW_COHERENCE : ℚ := 0.3

/-- Threshold constant `MINIMUM_COHERENCE`. -/
def MINIMUM_COHERENCE : ℚ := 0.1

/-- `thresholds.rs`, struct `CoherenceBand`. -/
structure CoherenceBand where
  lower : ℚ
  upper : ℚ
  name : String
deriving DecidableEq

/-- `CoherenceBand::contains`: lower bound inclusive, upper bound exclusive. -/
def CoherenceBand.contains (band : CoherenceBand) (value : ℚ) : Bool :=
  decide (band.lower ≤ value ∧ value < band.upper)

/-- `thresholds.rs`, enum `CoherenceLevel`. -/
inductive CoherenceLevel where
  | Peak
  | High
  | Medium
  | Low
  | Minimal
deriving DecidableEq

/-- `CoherenceLevel::band`: the band definition for each level. -/
def CoherenceLevel.band : CoherenceLevel → CoherenceBand
  | .Peak => ⟨HIGH_COHERENCE, 1.01, "peak"⟩
  | .High => ⟨MEDIUM_COHERENCE, HIGH_COHERENCE, "high"⟩
  | .Medium => ⟨LOW_COHERENCE, MEDIUM_COHERENCE, "medium"⟩
  | .Low => ⟨MINIMUM_COHERENCE, LOW_COHERENCE, "low"⟩
  | .Minimal => ⟨0.0, MINIMUM_COHERENCE, "minimal"⟩

/-- The array `levels` that `classify` walks, in source order. -/
def classifyLevels : List CoherenceLevel :=
  [.Peak, .High, .Medium, .Low, .Minimal]

/-- `CoherenceLevel::classify`: panics outside `[0, 1]`, otherwise returns the
first level whose half-open band contains the value, falling back to `Peak`. -/
def CoherenceLevel.classify (value : ℚ) : Except String CoherenceLevel :=
  if ¬ (0 ≤ value ∧ value ≤ 1) then
    Except.error "Coherence must be between 0 and 1"
  else
    Except.ok ((classifyLevels.find?
      (fun level => decide ((CoherenceLevel.band level).lower ≤ value ∧
        value < (CoherenceLevel.band level).upper))).getD CoherenceLevel.Peak)

/-- Rust `f64::clamp(0.0, 1.0)` on exact values: return the nearer endpoint
when outside `[0, 1]`, the value itself otherwise. -/
def clamp01 (x : ℚ) : ℚ :=
  if x < 0 then 0 else if 1 < x then 1 else x

/-- `thresholds.rs`, function `normalize_coherence`: panics when
`max_val <= min_val`, otherwise rescales linearly and clamps into `[0, 1]`. -/
def normalize_coherence (value min_val max_val : ℚ) : Except String ℚ :=
  if max_val ≤ min_val then Except.error "max_val must be greater than min_val"
  else Except.ok (clamp01 ((value - min_val) / (max_val - min_val)))

/-- `thresholds.rs`, function `is_coherence_stable`: trivially true below two
samples, otherwise compares the square root of the population variance with
the threshold. -/
noncomputable def is_coherence_stable (values : List ℚ) (threshold : ℚ) : Bool :=
  if values.length < 2 then true
  else
    let mean : ℚ := values.sum / (values.length : ℚ)
    let variance : ℚ := ((values.map fun v => (v - mean) ^ 2).sum) / (values.length : ℚ)
    let std_dev : ℝ := Real.sqrt ((variance : ℚ) : ℝ)
    decide (std_dev ≤ ((threshold : ℚ) : ℝ))

/-- `thresholds.rs`, function `is_coherence_stable_default`: threshold fixed
to `0.05`. -/
noncomputable def is_coherence_stable_default (values : List ℚ) : Bool :=
  is_coherence_stable values 0.05

/-! ## frequencies.rs -/

/-- `frequencies.rs`, function `octave_of`:
`frequency * 2.0f64.powi(octaves)`, the power of two exact in `ℚ`. -/
def octave_of (frequency : ℚ) (octaves : ℤ) : ℚ :=
  frequency * (2 : ℚ) ^ octaves

/-- `frequencies.rs`, function `harmonic_of`: panics when `harmonic < 1`,
otherwise multiplies. -/
def harmonic_of (frequency : ℚ) (harmonic : ℕ) : Except String ℚ :=
  if harmonic < 1 then Except.error "Harmonic must be >= 1"
  else Except.ok (frequency * (harmonic : ℚ))

/-- An f64 at the granularity `cents_difference` needs: a finite value (an
exact real) or one of the IEEE special values. -/
inductive F64 where
  | fin : ℝ → F64
  | posInf : F64
  | negInf : F64
  | nan : F64

/-- Whether an `F64` is a finite number. -/
def F64.isFinite : F64 → Bool
  | .fin _ => true
  | _ => false

/-- IEEE division `a / b` for finite operands, zeros unsigned as produced by
literals and ordinary arithmetic. -/
noncomputable def fdiv (a b : ℝ) : F64 :=
  if b = 0 then
    if a = 0 then F64.nan else if 0 < a then F64.posInf else F64.negInf
  else F64.fin (a / b)

/-- IEEE base-two logarithm on an `F64`. -/
noncomputable def flog2 : F64 → F64
  | .fin x =>
      if x < 0 then F64.nan
      else if x = 0 then F64.negInf
      else F64.fin (Real.logb 2 x)
  | .posInf => F64.posInf
  | .negInf => F64.nan
  | .nan => F64.nan

/-- IEEE multiplication of a finite positive constant with an `F64`. -/
noncomputable def fmulPos (c : ℝ) : F64 → F64
  | .fin x => F64.fin (c * x)
  | .posInf => F64.posInf
  | .negInf => F64.negInf
  | .nan => F64.nan

/-- `frequencies.rs`, function `cents_difference`:
`1200.0 * (freq2 / freq1).log2()`, with the IEEE special values tracked. -/
noncomputable def cents_difference (freq1 freq2 : ℝ) : F64 :=
  fmulPos 1200 (flog2 (fdiv freq2 freq1))

/-! ## Specification-side definitions, worded from the spec for the
refinement claims. -/

/-- Specification side of `classify` as §8 of the spec words it: `Peak` on
`[0.85, 1]`, `High` on `[0.6, 0.85)`, `Medium` on `[0.3, 0.6)`, `Low` on
`[0.1, 0.3)`, `Minimal` on `[0, 0.1)`, and a fatal error exactly when the
value lies outside `[0, 1]`. -/
def classifySpec (value : ℚ) : Except String CoherenceLevel :=
  if value < 0 ∨ 1 < value then Except.error "Coherence must be between 0 and 1"
  else if 0.85 ≤ value then Except.ok CoherenceLevel.Peak
  else if 0.6 ≤ value then Except.ok CoherenceLevel.High
  else if 0.3 ≤ value then Except.ok CoherenceLevel.Medium
  else if 0.1 ≤ value then Except.ok CoherenceLevel.Low
  else Except.ok CoherenceLevel.Minimal

/-- Specification side: the population variance of a sequence, divisor `n`. -/
def popVariance (values : List ℚ) : ℚ :=
  ((values.map fun v => (v - values.sum / (values.length : ℚ)) ^ 2).sum) /
    (values.length : ℚ)

/-- Specification side: the population standard deviation of a sequence. -/
noncomputable def popStdDev (values : List ℚ) : ℝ :=
  Real.sqrt ((popVariance values : ℚ) : ℝ)

/-! ## Helper lemmas -/

/-- Rust clamping into the unit interval agrees with the lattice form. -/
theorem clamp01_eq_max_min (x : ℚ) : clamp01 x = max 0 (min 1 x) := by
  unfold clamp01
  rcases lt_or_le x 0 with h | h
  · rw [if_pos h, max_eq_left ((min_le_right 1 x).trans h.le)]
  · rw [if_neg (not_lt.mpr h)]
    rcases lt_or_le 1 x with h1 | h1
    · rw [if_pos h1, min_eq_left h1.le, max_eq_right zero_le_one]
    · rw [if_neg (not_lt.mpr h1), min_eq_right h1, max_eq_right h]

/-- One loop iteration of `fibonacci_ratio`, as an equation. -/
theorem fibState_succ (i : ℕ) : fibState (i + 1) = fibStep (fibState i) := rfl

set_option maxRecDepth 4000

/-- After 93 iterations both registers of `fibonacci_ratio` sit at
`u64::MAX`, and they stay there. -/
theorem fibState_saturated (m : ℕ) : fibState (93 + m) = (U64_MAX, U64_MAX) := by
  induction m with
  | zero => decide
  | succ k ih =>
      have hs : 93 + (k + 1) = (93 + k) + 1 := by omega
      rw [hs, fibState_succ, ih]
      unfold fibStep saturatingAdd
      rw [min_eq_right (Nat.le_add_left _ _)]

/-- Beyond the saturation point the returned ratio is exactly 1. -/
theorem fibonacci_ratio_saturated (n : ℕ) (hn : 94 ≤ n) :
    fibonacci_ratio n = Except.ok 1 := by
  unfold fibonacci_ratio
  rw [if_neg (by omega)]
  have h : n - 1 = 93 + (n - 94) := by omega
  rw [h, fibState_saturated]
  show Except.ok (((U64_MAX : ℕ) : ℚ) / ((U64_MAX : ℕ) : ℚ)) = Except.ok 1
  rw [div_self (by norm_num [U64_MAX])]

/-! ## Claims -/

/-- C4: the five canonical bands each satisfy lower < upper, tile the unit
interval contiguously with Minimal starting at 0, and the Peak band's upper
bound exceeds 1 so the band contains the value 1. -/
theorem coherence_bands_partition :
    (CoherenceLevel.band .Minimal).lower = 0 ∧
    (CoherenceLevel.band .Minimal).lower < (CoherenceLevel.band .Minimal).upper ∧
    (CoherenceLevel.band .Low).lower < (CoherenceLevel.band .Low).upper ∧
    (CoherenceLevel.band .Medium).lower < (CoherenceLevel.band .Medium).upper ∧
    (CoherenceLevel.band .High).lower < (CoherenceLevel.band .High).upper ∧
    (CoherenceLevel.band .Peak).lower < (CoherenceLevel.band .Peak).upper ∧
    (CoherenceLevel.band .Minimal).upper = (CoherenceLevel.band .Low).lower ∧
    (CoherenceLevel.band .Low).upper = (CoherenceLevel.band .Medium).lower ∧
    (CoherenceLevel.band .Medium).upper = (CoherenceLevel.band .High).lower ∧
    (CoherenceLevel.band .High).upper = (CoherenceLevel.band .Peak).lower ∧
    1 < (CoherenceLevel.band .Peak).upper ∧
    CoherenceBand.contains (CoherenceLevel.band .Peak) 1 = true := by
  norm_num [CoherenceLevel.band, CoherenceBand.contains, HIGH_COHERENCE,
    MEDIUM_COHERENCE, LOW_COHERENCE, MINIMUM_COHERENCE]

/-- C5: for every frequency and harmonic number at least 1, `harmonic_of`
multiplies exactly, the first harmonic is the fundamental unchanged, and a
harmonic number below 1 is a fatal error. -/
theorem harmonic_of_spec (f : ℚ) (h : ℕ) :
    (1 ≤ h → harmonic_of f h = Except.ok (f * (h : ℚ))) ∧
    harmonic_of f 1 = Except.ok f ∧
    (h < 1 → harmonic_of f h = Except.error "Harmonic must be >= 1") := by
  refine ⟨fun hge => ?_, ?_, fun hlt => ?_⟩
  · unfold harmonic_of
    rw [if_neg (by omega)]
  · unfold harmonic_of
    rw [if_neg (by omega)]
    norm_num
  · unfold harmonic_of
    rw [if_pos hlt]

/-- C5 witness: concrete instances of the harmonic contract. -/
theorem harmonic_of_spec_witness :
    harmonic_of 100 2 = Except.ok 200 ∧
    harmonic_of 100 0 = Except.error "Harmonic must be >= 1" := by
  constructor
  · rw [(harmonic_of_spec 100 2).1 (by norm_num)]
    norm_num
  · exact (harmonic_of_spec 100 0).2.2 (by norm_num)

/-- C6: shifting up by k octaves and back down by k octaves returns the
original frequency (exactly, in the exact-arithmetic model, hence in
particular approximately). -/
theorem octave_of_roundtrip (f : ℚ) (k : ℤ) :
    octave_of (octave_of f k) (-k) = f := by
  unfold octave_of
  rw [mul_assoc, zpow_neg,
    mul_inv_cancel₀ (zpow_ne_zero k (by norm_num : (2:ℚ) ≠ 0)), mul_one]

/-- C7: with a proper range, `normalize_coherence` is the linear rescaling
clamped into the unit interval, and with a degenerate range it is a fatal
error. -/
theorem normalize_coherence_spec (value min_val max_val : ℚ) :
    (min_val < max_val →
      normalize_coherence value min_val max_val =
        Except.ok (max 0 (min 1 ((value - min_val) / (max_val - min_val))))) ∧
    (max_val ≤ min_val →
      normalize_coherence value min_val max_val =
        Except.error "max_val must be greater than min_val") := by
  constructor
  · intro hlt
    unfold normalize_coherence
    rw [if_neg (not_le.mpr hlt), clamp01_eq_max_min]
  · intro hle
    unfold normalize_coherence
    rw [if_pos hle]

/-- C7 witness: the three spec examples and the degenerate range. -/
theorem normalize_coherence_spec_witness :
    normalize_coherence 50 0 100 = Except.ok (1/2) ∧
    normalize_coherence (-10) 0 100 = Except.ok 0 ∧
    normalize_coherence 150 0 100 = Except.ok 1 ∧
    normalize_coherence 5 3 3 = Except.error "max_val must be greater than min_val" := by
  refine ⟨?_, ?_, ?_, (normalize_coherence_spec 5 3 3).2 le_rfl⟩
  · rw [(normalize_coherence_spec 50 0 100).1 (by norm_num)]
    norm_num
  · rw [(normalize_coherence_spec (-10) 0 100).1 (by norm_num)]
    norm_num
  · rw [(normalize_coherence_spec 150 0 100).1 (by norm_num)]
    norm_num

/-- C1 counterexample: the stated convergence to `PHI` is false. Because the
additions saturate at `u64::MAX`, both registers are pinned there from the
94th index on and the returned ratio is exactly 1, so no tolerance below
`PHI - 1` is ever met from some point on. -/
theorem fibonacci_ratio_convergence_counterexample :
    ¬ (∀ tol : ℚ, 0 < tol → ∃ N : ℕ, ∀ n : ℕ, N ≤ n →
        ∀ r : ℚ, fibonacci_ratio n = Except.ok r → |r - PHI| < tol) := by
  intro hconv
  obtain ⟨N, hN⟩ := hconv (1/2) (by norm_num)
  have h1 : fibonacci_ratio (N + 94) = Except.ok 1 :=
    fibonacci_ratio_saturated _ (by omega)
  have h2 := hN (N + 94) (by omega) 1 h1
  rw [PHI, abs_of_neg (by norm_num)] at h2
  norm_num at h2

/-- C1 (amended): the ratio tracks consecutive saturating-u64 Fibonacci
numbers, so it approaches `PHI` only over the pre-saturation range (at
index 20 it is within 1e-6 of `PHI`), while in the limit it converges to 1,
being exactly 1 for every index from 94 on. -/
theorem fibonacci_ratio_amended :
    (∀ n : ℕ, 94 ≤ n → fibonacci_ratio n = Except.ok 1) ∧
    fibonacci_ratio 20 = Except.ok (10946 / 6765) ∧
    |(10946 / 6765 : ℚ) - PHI| < 1e-6 := by
  refine ⟨fun n hn => fibonacci_ratio_saturated n hn, ?_, ?_⟩
  · unfold fibonacci_ratio
    rw [if_neg (by omega)]
    have h19 : fibState 19 = (6765, 10946) := by decide
    rw [show (20:ℕ) - 1 = 19 from rfl, h19]
    show Except.ok (((10946 : ℕ) : ℚ) / ((6765 : ℕ) : ℚ)) = _
    norm_num
  · rw [PHI, abs_of_pos (by norm_num)]
    norm_num

/-- C1 witness: a concrete post-saturation index returning ratio 1. -/
theorem fibonacci_ratio_amended_witness :
    fibonacci_ratio 100 = Except.ok 1 :=
  fibonacci_ratio_amended.1 100 (by norm_num)

/-- C9: `is_phi_ratio` is false on any nonpositive input, on positive inputs
it holds exactly when the larger-over-smaller ratio is within the tolerance
of `PHI`, and the default variant fixes the tolerance at 0.01. -/
theorem is_phi_ratio_spec (a b tolerance : ℚ) :
    ((a ≤ 0 ∨ b ≤ 0) → is_phi_ratio a b tolerance = false) ∧
    (0 < a → 0 < b →
      (is_phi_ratio a b tolerance = true ↔ |max a b / min a b - PHI| < tolerance)) ∧
    is_phi_ratio_default a b = is_phi_ratio a b 0.01 := by
  refine ⟨fun hnp => ?_, fun ha hb => ?_, rfl⟩
  · unfold is_phi_ratio
    rw [if_pos hnp]
  · unfold is_phi_ratio
    rw [if_neg (by push_neg; exact ⟨ha, hb⟩)]
    simp only [decide_eq_true_eq]

/-- C9 witness: the spec examples at the default tolerance. -/
theorem is_phi_ratio_spec_witness :
    is_phi_ratio 1 1.618033988749895 0.01 = true ∧
    is_phi_ratio 1 2 0.01 = false ∧
    is_phi_ratio (-1) 2 0.01 = false := by
  refine ⟨?_, ?_, (is_phi_ratio_spec (-1) 2 0.01).1 (Or.inl (by norm_num))⟩
  · rw [(is_phi_ratio_spec 1 1.618033988749895 0.01).2.1 (by norm_num) (by norm_num)]
    rw [max_eq_right (by norm_num), min_eq_left (by norm_num), PHI]
    norm_num
  · have hiff := (is_phi_ratio_spec 1 2 0.01).2.1 (by norm_num) (by norm_num)
    have hP : ¬ (|max (1:ℚ) 2 / min (1:ℚ) 2 - PHI| < 0.01) := by
      rw [max_eq_right (by norm_num), min_eq_left (by norm_num), PHI,
        abs_of_pos (by norm_num)]
      norm_num
    exact Bool.eq_false_iff.mpr (fun h => hP (hiff.mp h))

/-- C10: `is_phi_ratio` and its default variant are symmetric in the two
measured values, the documentation's suggestion that the second argument be
the larger notwithstanding. -/
theorem is_phi_ratio_symmetric (a b t : ℚ) :
    is_phi_ratio a b t = is_phi_ratio b a t ∧
    is_phi_ratio_default a b = is_phi_ratio_default b a := by
  have key : ∀ u v w : ℚ, is_phi_ratio u v w = is_phi_ratio v u w := by
    intro u v w
    unfold is_phi_ratio
    rw [max_comm, min_comm]
    exact if_congr or_comm rfl rfl
  exact ⟨key a b t, key a b 0.01⟩

/-- C2: the first-match walk of `classify` agrees with the interval table of
the spec (`Peak` on `[0.85, 1]`, `High` on `[0.6, 0.85)`, `Medium` on
`[0.3, 0.6)`, `Low` on `[0.1, 0.3)`, `Minimal` on `[0, 0.1)`) and fails
fatally exactly when the value lies outside `[0, 1]`. -/
theorem classify_matches_spec (value : ℚ) :
    CoherenceLevel.classify value = classifySpec value := by
  unfold CoherenceLevel.classify classifySpec classifyLevels
  by_cases h0 : 0 ≤ value ∧ value ≤ 1
  · obtain ⟨hl, hr⟩ := h0
    rw [if_neg (not_not_intro ⟨hl, hr⟩), if_neg (by push_neg; exact ⟨hl, hr⟩)]
    rcases le_or_lt (0.85 : ℚ) value with h85 | h85
    · rw [List.find?_cons_of_pos _ (by
        simp only [CoherenceLevel.band, HIGH_COHERENCE, decide_eq_true_eq]
        exact ⟨h85, hr.trans_lt (by norm_num)⟩)]
      rw [Option.getD_some, if_pos h85]
    · rw [List.find?_cons_of_neg _ (by
        simp only [CoherenceLevel.band, HIGH_COHERENCE, decide_eq_true_eq]
        exact fun hc => absurd hc.1 (not_le.mpr h85)),
        if_neg (not_le.mpr h85)]
      rcases le_or_lt (0.6 : ℚ) value with h6 | h6
      · rw [List.find?_cons_of_pos _ (by
          simp only [CoherenceLevel.band, MEDIUM_COHERENCE, HIGH_COHERENCE,
            decide_eq_true_eq]
          exact ⟨h6, h85⟩)]
        rw [Option.getD_some, if_pos h6]
      · rw [List.find?_cons_of_neg _ (by
          simp only [CoherenceLevel.band, MEDIUM_COHERENCE, HIGH_COHERENCE,
            decide_eq_true_eq]
          exact fun hc => absurd hc.1 (not_le.mpr h6)),
          if_neg (not_le.mpr h6)]
        rcases le_or_lt (0.3 : ℚ) value with h3 | h3
        · rw [List.find?_cons_of_pos _ (by
            simp only [CoherenceLevel.band, LOW_COHERENCE, MEDIUM_COHERENCE,
              decide_eq_true_eq]
            exact ⟨h3, h6⟩)]
          rw [Option.getD_some, if_pos h3]
        · rw [List.find?_cons_of_neg _ (by
            simp only [CoherenceLevel.band, LOW_COHERENCE, MEDIUM_COHERENCE,
              decide_eq_true_eq]
            exact fun hc => absurd hc.1 (not_le.mpr h3)),
            if_neg (not_le.mpr h3)]
          rcases le_or_lt (0.1 : ℚ) value with h1 | h1
          · rw [List.find?_cons_of_pos _ (by
              simp only [CoherenceLevel.band, MINIMUM_COHERENCE, LOW_COHERENCE,
                decide_eq_true_eq]
              exact ⟨h1, h3⟩)]
            rw [Option.getD_some, if_pos h1]
          · rw [List.find?_cons_of_neg _ (by
              simp only [CoherenceLevel.band, MINIMUM_COHERENCE, LOW_COHERENCE,
                decide_eq_true_eq]
              exact fun hc => absurd hc.1 (not_le.mpr h1)),
              if_neg (not_le.mpr h1)]
            rw [List.find?_cons_of_pos _ (by
              simp only [CoherenceLevel.band, MINIMUM_COHERENCE, decide_eq_true_eq]
              exact ⟨le_trans (by norm_num) hl, h1⟩)]
            rw [Option.getD_some]
  · have hc : value < 0 ∨ 1 < value := by
      rcases not_and_or.mp h0 with h | h
      · exact Or.inl (not_le.mp h)
      · exact Or.inr (not_le.mp h)
    rw [if_pos h0, if_pos hc]

/-- C3 counterexample: with both inputs negative the unguarded quotient is
positive, so `cents_difference` returns a finite value even though an input
is nonpositive; at `(-1, -2)` it returns exactly 1200. -/
theorem cents_difference_counterexample :
    ((-1 : ℝ) ≤ 0 ∨ (-2 : ℝ) ≤ 0) ∧
    (cents_difference (-1) (-2)).isFinite = true := by
  refine ⟨Or.inl (by norm_num), ?_⟩
  unfold cents_difference fdiv
  rw [if_neg (by norm_num : ¬ (-1 : ℝ) = 0)]
  rw [show (-2 : ℝ) / (-1 : ℝ) = 2 from by norm_num]
  show (fmulPos 1200 (flog2 (F64.fin 2))).isFinite = true
  rw [show flog2 (F64.fin 2) = F64.fin (Real.logb 2 2) from by
    show (if (2 : ℝ) < 0 then F64.nan else if (2 : ℝ) = 0 then F64.negInf
      else F64.fin (Real.logb 2 2)) = F64.fin (Real.logb 2 2)
    rw [if_neg (by norm_num : ¬ (2 : ℝ) < 0), if_neg (by norm_num : ¬ (2 : ℝ) = 0)]]
  rfl

/-- C3 (amended): `cents_difference` never fails fatally; it produces a
non-finite value exactly when an input is zero or the two inputs have
opposite signs, and whenever the inputs have the same nonzero sign — in
particular when both are positive — it returns the finite value
`1200 * log2(freq2 / freq1)`. -/
theorem cents_difference_amended (f1 f2 : ℝ) :
    ((cents_difference f1 f2).isFinite = false ↔
      (f1 = 0 ∨ f2 = 0 ∨ f1 * f2 < 0)) ∧
    (0 < f1 * f2 →
      cents_difference f1 f2 = F64.fin (1200 * Real.logb 2 (f2 / f1))) := by
  unfold cents_difference fdiv
  by_cases h1 : f1 = 0
  · subst h1
    rw [if_pos rfl]
    constructor
    · constructor
      · intro _
        exact Or.inl rfl
      · intro _
        by_cases h2 : f2 = 0
        · rw [if_pos h2]
          rfl
        · rw [if_neg h2]
          by_cases h2p : 0 < f2
          · rw [if_pos h2p]
            rfl
          · rw [if_neg h2p]
            rfl
    · intro hp
      rw [mul_comm, mul_zero] at hp
      exact absurd hp (lt_irrefl 0)
  · rw [if_neg h1]
    rcases lt_trichotomy (f2 / f1) 0 with hd | hd | hd
    · have hneg : f1 * f2 < 0 := by
        rcases div_neg_iff.mp hd with ⟨ha, hb⟩ | ⟨ha, hb⟩
        · exact mul_neg_of_neg_of_pos hb ha
        · exact mul_neg_of_pos_of_neg hb ha
      rw [show flog2 (F64.fin (f2 / f1)) = F64.nan from by
        show (if f2 / f1 < 0 then F64.nan else if f2 / f1 = 0 then F64.negInf
          else F64.fin (Real.logb 2 (f2 / f1))) = F64.nan
        rw [if_pos hd]]
      exact ⟨⟨fun _ => Or.inr (Or.inr hneg), fun _ => rfl⟩,
        fun hp => absurd hp (asymm hneg)⟩
    · have h2 : f2 = 0 := by
        rcases div_eq_zero_iff.mp hd with h | h
        · exact h
        · exact absurd h h1
      rw [show flog2 (F64.fin (f2 / f1)) = F64.negInf from by
        show (if f2 / f1 < 0 then F64.nan else if f2 / f1 = 0 then F64.negInf
          else F64.fin (Real.logb 2 (f2 / f1))) = F64.negInf
        rw [if_neg (by rw [hd]; exact lt_irrefl 0), if_pos hd]]
      refine ⟨⟨fun _ => Or.inr (Or.inl h2), fun _ => rfl⟩, fun hp => ?_⟩
      rw [h2, mul_zero] at hp
      exact absurd hp (lt_irrefl 0)
    · have hmul : 0 < f1 * f2 := by
        rcases div_pos_iff.mp hd with ⟨ha, hb⟩ | ⟨ha, hb⟩
        · exact mul_pos hb ha
        · exact mul_pos_of_neg_of_neg hb ha
      have h2 : f2 ≠ 0 := by
        intro h2z
        rw [h2z, zero_div] at hd
        exact lt_irrefl 0 hd
      rw [show flog2 (F64.fin (f2 / f1)) = F64.fin (Real.logb 2 (f2 / f1)) from by
        show (if f2 / f1 < 0 then F64.nan else if f2 / f1 = 0 then F64.negInf
          else F64.fin (Real.logb 2 (f2 / f1))) = F64.fin (Real.logb 2 (f2 / f1))
        rw [if_neg (not_lt.mpr hd.le), if_neg (ne_of_gt hd)]]
      refine ⟨⟨fun h => ?_, fun h => ?_⟩, fun _ => rfl⟩
      · have ht : (fmulPos 1200 (F64.fin (Real.logb 2 (f2 / f1)))).isFinite = true := rfl
        rw [ht] at h
        exact absurd h (by decide)
      · rcases h with h | h | h
        · exact absurd h h1
        · exact absurd h h2
        · exact absurd h (asymm hmul)

/-- C3 witness: the positive-input clause at `(1, 2)`, a finite result. -/
theorem cents_difference_amended_witness :
    cents_difference 1 2 = F64.fin (1200 * Real.logb 2 (2 / 1)) ∧
    (cents_difference 1 2).isFinite = true := by
  have h := (cents_difference_amended 1 2).2 (by norm_num)
  refine ⟨h, ?_⟩
  rw [h]
  rfl

/-- C8: fewer than two samples are always stable; from two samples on,
stability holds exactly when the population standard deviation (variance
with divisor n) is at most the threshold; the default variant fixes the
threshold at 0.05. -/
theorem is_coherence_stable_spec (values : List ℚ) (threshold : ℚ) :
    (values.length < 2 → is_coherence_stable values threshold = true) ∧
    (2 ≤ values.length →
      (is_coherence_stable values threshold = true ↔
        popStdDev values ≤ ((threshold : ℚ) : ℝ))) ∧
    is_coherence_stable_default values = is_coherence_stable values 0.05 := by
  refine ⟨fun h => ?_, fun h => ?_, rfl⟩
  · unfold is_coherence_stable
    rw [if_pos h]
  · unfold is_coherence_stable
    rw [if_neg (by omega)]
    show decide (Real.sqrt ((popVariance values : ℚ) : ℝ) ≤ ((threshold : ℚ) : ℝ)) =
      true ↔ _
    rw [decide_eq_true_eq]
    unfold popStdDev
    rfl

/-- C8 witness: the empty sequence is stable for any threshold, and a
constant two-sample sequence has standard deviation zero, hence is stable at
threshold zero. -/
theorem is_coherence_stable_spec_witness :
    is_coherence_stable [] 0 = true ∧
    is_coherence_stable [0, 0] 0 = true := by
  constructor
  · exact (is_coherence_stable_spec [] 0).1 (by norm_num)
  · refine ((is_coherence_stable_spec [0, 0] 0).2.1 (by norm_num)).mpr ?_
    have hv : popVariance [0, 0] = 0 := by
      norm_num [popVariance]
    unfold popStdDev
    rw [hv]
    push_cast
    simp [Real.sqrt_zero]

end RaConstants
